import Mathlib

/-!
Verification of the httpfuzz plugin-broker subsystem.

Shallow embedding of the Go sources:
- `src/http.go`: `Request.CloneBody`, `Response.CloneBody` (body duplication).
- the plugin broker file: `PluginBroker.SendResult`, `SignalDone`, `Wait`,
  `add`, `run`, `LoadPlugins`.

Modelling conventions:
- An HTTP body (`io.ReadCloser`) is a `Reader`: the full backing buffer, a
  read position, and a flag saying whether reading from it fails.
  `ioutil.ReadAll` returns the bytes from the current position and `bytes.NewReader b`
  is `⟨b, 0, false⟩`.
- Go pointer identity is modelled by `Nat` ids on heap objects (a Request
  object, a Response object, a header map, a trailer map, a body reader).
  A fresh-id counter is threaded through every operation that allocates;
  two objects with distinct ids are distinct heap objects, so writing
  through one cannot change the other, while copying an id models copying
  a reference.
- A Go call that can return an error is `Except`; one that can also panic
  (nil dereference) returns a `COut` with a `crash` constructor.
- Channel delivery is sequential: the value a plugin receives from its
  channel is the snapshot of the shared `Result` at the moment of the send.
-/

namespace Httpfuzz

/-- Bytes of an HTTP body. -/
abbrev Bytes := List Nat

/-- In-memory model of an `io.ReadCloser`: `content` is the backing buffer,
`pos` the read position, `fails` whether draining this stream errors. -/
structure Reader where
  content : Bytes
  pos : Nat
  fails : Bool
deriving DecidableEq, Repr

/-- The bytes `ioutil.ReadAll` returns from the reader's current position. -/
def Reader.readable (rd : Reader) : Bytes := rd.content.drop rd.pos

/-- Model of an `http.Header` (and `http.Header.Clone` content): keys with value lists. -/
abbrev HeaderMap := List (String × List String)

/-- A body stream reference: `none` is a nil `Body`. -/
abbrev BodyRef := Option Reader

/-- The bytes readable from a possibly-nil body. -/
def bodyBytes : BodyRef → Bytes
  | none => []
  | some rd => rd.readable

/-- A non-nil body that drains without error. -/
def goodBody : BodyRef → Prop
  | none => False
  | some rd => rd.fails = false

instance : (b : BodyRef) → Decidable (goodBody b)
  | none => isFalse fun h => h
  | some rd => inferInstanceAs (Decidable (rd.fails = false))

/-- A non-nil body whose stream is at position 0 and readable without error. -/
def fullyReadable : BodyRef → Prop
  | none => False
  | some rd => rd.pos = 0 ∧ rd.fails = false

instance : (b : BodyRef) → Decidable (fullyReadable b)
  | none => isFalse fun h => h
  | some rd => inferInstanceAs (Decidable (rd.pos = 0 ∧ rd.fails = false))

/-- Shallow embedding of `httpfuzz.Request` (src/http.go). `id` is the identity
of the Request object itself, `headerId` of its header map, `bodyId` of the
reader currently installed as its body (meaningful when `body` is non-nil). -/
structure Request where
  id : Nat
  headerId : Nat
  header : HeaderMap
  bodyId : Nat
  body : BodyRef
deriving DecidableEq, Repr

/-- Shallow embedding of `Request.CloneBody` (src/http.go).

The Go code first calls `r.Request.Clone(ctx)`: a fresh Request object
(fresh `id`) with a deep-copied header map (fresh `headerId`, same content)
and the body stream copied by reference. If the body is nil it returns the
clone at once, the original untouched. Otherwise it drains the shared body
(`ioutil.ReadAll`); a read error aborts with an error. On success it installs
a fresh reader over the drained bytes as the original's body (in-place
mutation of the original object) and another fresh reader over the same
bytes as the clone's body.

Returns `(clone, original as mutated in place, next fresh id)`. The context
argument is used only for the structural clone and has no observable effect
here, so it is omitted. -/
def Request.CloneBody (r : Request) (ctr : Nat) : Except Unit (Request × Request × Nat) :=
  let req : Request :=
    { id := ctr, headerId := ctr + 1, header := r.header, bodyId := r.bodyId, body := r.body }
  match r.body with
  | none => Except.ok (req, r, ctr + 2)
  | some rd =>
    if rd.fails then Except.error ()
    else
      let body := rd.readable
      let orig : Request := { r with bodyId := ctr + 2, body := some ⟨body, 0, false⟩ }
      let clone : Request := { req with bodyId := ctr + 3, body := some ⟨body, 0, false⟩ }
      Except.ok (clone, orig, ctr + 4)

/-- Outcome of a Go call that may return an error or panic (crash). -/
inductive COut (α : Type) where
  | ok : α → COut α
  | err : COut α
  | crash : COut α
deriving DecidableEq, Repr

/-- Shallow embedding of `httpfuzz.Response` (src/http.go). `id`, `headerId`,
`trailerId`, `bodyId` are heap identities as in `Request`; `requestRef` and
`tlsRef` model the `Request` and `TLS` pointers stored in the response. -/
structure Response where
  id : Nat
  headerId : Nat
  header : HeaderMap
  trailerId : Nat
  trailer : HeaderMap
  bodyId : Nat
  body : BodyRef
  status : String
  statusCode : Nat
  proto : String
  protoMajor : Nat
  protoMinor : Nat
  contentLength : Int
  transferEncoding : List String
  close : Bool
  uncompressed : Bool
  requestRef : Nat
  tlsRef : Nat
deriving DecidableEq, Repr

/-- Shallow embedding of `Response.CloneBody` (src/http.go).

`newResponse := new(http.Response)` starts from the zero value; its
`TransferEncoding` is therefore the nil slice. The Go code then clones the
header map (fresh id, same content), drains the body — `ioutil.ReadAll` on a
nil body dereferences nil and panics (`crash`), and a read error aborts with
an error — installs fresh readers over the drained bytes into the original
(in place) and the clone, deep-copies the trailer map, copies the scalar
fields, copies the `Request` and `TLS` pointers by reference, and finally
runs `copy(newResponse.TransferEncoding, r.Response.TransferEncoding)`:
a copy into the nil destination slice, which copies zero elements, leaving
the clone's `transferEncoding` empty.

Returns `(clone, original as mutated in place, next fresh id)`. -/
def Response.CloneBody (r : Response) (ctr : Nat) : COut (Response × Response × Nat) :=
  match r.body with
  | none => COut.crash
  | some rd =>
    if rd.fails then COut.err
    else
      let body := rd.readable
      let orig : Response := { r with bodyId := ctr + 2, body := some ⟨body, 0, false⟩ }
      let clone : Response :=
        { id := ctr, headerId := ctr + 1, header := r.header,
          trailerId := ctr + 4, trailer := r.trailer,
          bodyId := ctr + 3, body := some ⟨body, 0, false⟩,
          status := r.status, statusCode := r.statusCode,
          proto := r.proto, protoMajor := r.protoMajor, protoMinor := r.protoMinor,
          contentLength := r.contentLength,
          transferEncoding := [],
          close := r.close, uncompressed := r.uncompressed,
          requestRef := r.requestRef, tlsRef := r.tlsRef }
      COut.ok (clone, orig, ctr + 5)

/-- Shallow embedding of `httpfuzz.Result`: request, response and fuzz metadata. -/
structure Result where
  request : Request
  response : Response
  payload : String
  location : String
  fieldName : String
  timeElapsed : Nat
deriving DecidableEq, Repr

/-- Both bodies of a Result are non-nil and drain without error. -/
def goodBodies (r : Result) : Prop :=
  goodBody r.request.body ∧ goodBody r.response.body

instance (r : Result) : Decidable (goodBodies r) :=
  inferInstanceAs (Decidable (goodBody r.request.body ∧ goodBody r.response.body))

/-- The heap identities held by a Result: its Request object, request header
map, request body reader, Response object, response header map, response
trailer map, and response body reader. -/
def Result.objIds (r : Result) : List Nat :=
  [r.request.id, r.request.headerId, r.request.bodyId,
   r.response.id, r.response.headerId, r.response.trailerId, r.response.bodyId]

/-- Equality of the four metadata fields of a Result. -/
def metaEq (a b : Result) : Prop :=
  a.payload = b.payload ∧ a.location = b.location ∧
  a.fieldName = b.fieldName ∧ a.timeElapsed = b.timeElapsed

instance (a b : Result) : Decidable (metaEq a b) :=
  inferInstanceAs (Decidable (a.payload = b.payload ∧ a.location = b.location ∧
    a.fieldName = b.fieldName ∧ a.timeElapsed = b.timeElapsed))

/-- One iteration of the `SendResult` loop body (the plugin broker source):
clone the current `result.Request`, then the current `result.Response`
(either failure aborts the iteration; a nil response body panics), then
assign both clones into the shared Result. The value subsequently sent on
the plugin's channel is exactly this updated Result. The two components
discarded here are the in-place-mutated states of the clone-source objects
— from the second iteration on, those are the previous plugin's delivered
Request/Response; `cloneStepFull` keeps them. -/
def cloneStep (result : Result) (ctr : Nat) : COut (Result × Nat) :=
  match result.request.CloneBody ctr with
  | Except.error _ => COut.err
  | Except.ok (req, _, ctr1) =>
    match result.response.CloneBody ctr1 with
    | COut.err => COut.err
    | COut.crash => COut.crash
    | COut.ok (resp, _, ctr2) =>
      COut.ok ({ result with request := req, response := resp }, ctr2)

/-- Outcome of `SendResult` over the whole plugin list: the final state of the
shared Result, the final fresh-id counter, and the list of per-plugin
deliveries (the Result snapshot sent to plugin 0, 1, ... in registration
order). `err` models returning a non-nil error, `crash` a panic; in both
cases the deliveries made before the abort are recorded. -/
inductive SendOut where
  | ok : Result → Nat → List Result → SendOut
  | err : List Result → SendOut
  | crash : List Result → SendOut
deriving DecidableEq, Repr

/-- Shallow embedding of `PluginBroker.SendResult` (the plugin broker source):
iterate `cloneStep` once per registered plugin (only the number of plugins
matters to the loop), delivering the updated shared Result to each plugin in
turn; a clone error returns the error immediately, aborting the remaining
fan-out. Each delivery records the value sent on the channel — the snapshot
behind the shared `*Result` pointer at handoff. The Go code sends the SAME
pointer every iteration and later iterations overwrite objects already
delivered; that aliasing is elided here and made explicit by `sendLoopFull`,
of which this function is the sent-snapshot projection
(`sendLoopFull_projects`). -/
def sendLoop : Nat → Result → Nat → SendOut
  | 0, result, ctr => SendOut.ok result ctr []
  | Nat.succ n, result, ctr =>
    match cloneStep result ctr with
    | COut.err => SendOut.err []
    | COut.crash => SendOut.crash []
    | COut.ok (result1, ctr1) =>
      match sendLoop n result1 ctr1 with
      | SendOut.ok rf cf ds => SendOut.ok rf cf (result1 :: ds)
      | SendOut.err ds => SendOut.err (result1 :: ds)
      | SendOut.crash ds => SendOut.crash (result1 :: ds)

/-- The load outcome of one module path, abstracting the external dynamic
loader: `plugin.Open` can fail, `plg.Lookup` of the factory symbol can fail,
the factory call can return an error, or everything succeeds and yields a
Listener instance (identified by a `Nat`). -/
inductive PathSpec where
  | openFail
  | lookupFail
  | initFail
  | ok : Nat → PathSpec
deriving DecidableEq, Repr

/-- The listener a successfully loading path yields (0 for failing paths). -/
def listenerOf : PathSpec → Nat
  | PathSpec.ok l => l
  | _ => 0

/-- Errors `LoadPlugins` can return, one per failure site in the loop. -/
inductive LoadErr where
  | openErr
  | lookupErr
  | initErr
deriving DecidableEq, Repr

/-- Shallow embedding of the `pluginInfo` record: a Listener paired with its
dedicated delivery channel (the channel identified by a `Nat`). -/
structure PluginHandle where
  input : Nat
  listener : Nat
deriving DecidableEq, Repr

/-- Shallow embedding of `httpfuzz.PluginBroker`: the plugin collection, the
WaitGroup counter, and the channels whose worker goroutine has been started. -/
structure PluginBroker where
  plugins : List PluginHandle
  wgCount : Nat
  running : List Nat
deriving DecidableEq, Repr

/-- `PluginBroker.add`: append the plugin and `waitGroup.Add(1)`. -/
def PluginBroker.add (b : PluginBroker) (pl : PluginHandle) : PluginBroker :=
  { b with plugins := b.plugins ++ [pl], wgCount := b.wgCount + 1 }

/-- `PluginBroker.run`: start the worker goroutine consuming the plugin's
channel (recorded as the channel joining the running set). -/
def PluginBroker.run (b : PluginBroker) (pl : PluginHandle) : PluginBroker :=
  { b with running := b.running ++ [pl.input] }

/-- The loop of `LoadPlugins` over the remaining paths, carrying the broker
built so far and the fresh-channel counter. On the first failing path it
returns `(nil, error)` at once — the partially built broker is discarded.
For a successful path it makes a fresh channel, wraps the listener, then
`broker.add` and `broker.run`. -/
def loadLoop : List PathSpec → PluginBroker → Nat → Option PluginBroker × Option LoadErr × Nat
  | [], broker, c => (some broker, none, c)
  | path :: paths, broker, c =>
    match path with
    | PathSpec.openFail => (none, some LoadErr.openErr, c)
    | PathSpec.lookupFail => (none, some LoadErr.lookupErr, c)
    | PathSpec.initFail => (none, some LoadErr.initErr, c)
    | PathSpec.ok l =>
      let input := c
      let httpfuzzPlugin : PluginHandle := { input := input, listener := l }
      loadLoop paths ((broker.add httpfuzzPlugin).run httpfuzzPlugin) (c + 1)

/-- Shallow embedding of `httpfuzz.LoadPlugins`: start from the empty broker
and process the paths in order. Returns the Go pair `(broker, err)` plus the
final fresh-channel counter. -/
def LoadPlugins (paths : List PathSpec) (ctr : Nat) : Option PluginBroker × Option LoadErr × Nat :=
  loadLoop paths { plugins := [], wgCount := 0, running := [] } ctr

/-- `PluginBroker.SendResult`: the dispatch loop runs once per registered
plugin. -/
def PluginBroker.SendResult (b : PluginBroker) (result : Result) (ctr : Nat) : SendOut :=
  sendLoop b.plugins.length result ctr

/-- Runtime shutdown state of a broker: per plugin (by registration index)
whether its delivery channel is still open and whether its worker has
returned, plus the WaitGroup counter. -/
structure RunState where
  chanOpen : List Bool
  workerDone : List Bool
  wg : Nat
deriving DecidableEq, Repr

/-- The runtime state of a freshly loaded broker: every channel open, every
worker running, and the WaitGroup counter at one unit per registered plugin
(`add` does `waitGroup.Add(1)` once per plugin). -/
def PluginBroker.runState (b : PluginBroker) : RunState :=
  { chanOpen := List.replicate b.plugins.length true,
    workerDone := List.replicate b.plugins.length false,
    wg := b.plugins.length }

/-- Shallow embedding of `PluginBroker.SignalDone`: close every plugin's
delivery channel. -/
def SignalDone (s : RunState) : RunState :=
  { s with chanOpen := s.chanOpen.map fun _ => false }

/-- `PluginBroker.Wait` (`waitGroup.Wait`) returns exactly when the WaitGroup
counter is zero. -/
def waitReturns (s : RunState) : Prop := s.wg = 0

instance (s : RunState) : Decidable (waitReturns s) :=
  inferInstanceAs (Decidable (s.wg = 0))

/-- Every worker has returned. -/
def allDone (s : RunState) : Prop := ∀ b ∈ s.workerDone, b = true

instance (s : RunState) : Decidable (allDone s) :=
  inferInstanceAs (Decidable (∀ b ∈ s.workerDone, b = true))

/-- One worker event: a contract-abiding Listener consumes its channel until
the channel closes, so worker `i` can return only once its channel is closed
and it has not returned yet; on return the goroutine wrapper in
`PluginBroker.run` calls `waitGroup.Done()`, decrementing the counter. -/
inductive WStep : RunState → RunState → Prop
  | ret (s : RunState) (i : Nat)
      (hc : s.chanOpen.get? i = some false)
      (hd : s.workerDone.get? i = some false) :
      WStep s { chanOpen := s.chanOpen, workerDone := s.workerDone.set i true, wg := s.wg - 1 }

/-- The WaitGroup counter agrees with the number of workers still running,
and the channel and worker lists describe the same plugins. -/
def wgInv (s : RunState) : Prop :=
  s.wg = (s.workerDone.filter fun b => !b).length ∧
  s.chanOpen.length = s.workerDone.length

instance (s : RunState) : Decidable (wgInv s) :=
  inferInstanceAs (Decidable (s.wg = (s.workerDone.filter fun b => !b).length ∧
    s.chanOpen.length = s.workerDone.length))

/-- A sample two-byte body stream at position 0 that reads without error. -/
def sampleReader : Reader := { content := [104, 105], pos := 0, fails := false }

/-- A sample request: object id 0, header map id 1, body reader id 2. -/
def sampleRequest : Request :=
  { id := 0, headerId := 1, header := [("Accept", ["*"])], bodyId := 2, body := some sampleReader }

/-- A sample response with a nonempty transfer-encoding list; object id 3,
header map id 4, trailer map id 5, body reader id 6. -/
def sampleResponse : Response :=
  { id := 3, headerId := 4, header := [("Server", ["x"])],
    trailerId := 5, trailer := [], bodyId := 6, body := some sampleReader,
    status := "200 OK", statusCode := 200, proto := "HTTP/1.1",
    protoMajor := 1, protoMinor := 1, contentLength := 2,
    transferEncoding := ["chunked"], close := false, uncompressed := false,
    requestRef := 7, tlsRef := 8 }

/-- A sample Result over `sampleRequest` and `sampleResponse`; every heap id
in it is below 100, so 100 is a valid fresh-id counter for it. -/
def sampleResult : Result :=
  { request := sampleRequest, response := sampleResponse,
    payload := "AAAA", location := "header", fieldName := "X-Fuzz", timeElapsed := 5 }

/-- A request whose body read fails, for exercising the error paths. -/
def failingRequest : Request :=
  { id := 0, headerId := 1, header := [], bodyId := 2,
    body := some { content := [1], pos := 0, fails := true } }

/-- A Result whose request body cannot be drained. -/
def failingResult : Result :=
  { request := failingRequest, response := sampleResponse,
    payload := "AAAA", location := "header", fieldName := "X-Fuzz", timeElapsed := 5 }

/-- A request whose Body is nil. -/
def nilBodyRequest : Request :=
  { id := 20, headerId := 21, header := [], bodyId := 22, body := none }

/-- A response whose Body is nil. -/
def nilBodyResponse : Response :=
  { id := 30, headerId := 31, header := [], trailerId := 32, trailer := [],
    bodyId := 33, body := none, status := "200 OK", statusCode := 200,
    proto := "HTTP/1.1", protoMajor := 1, protoMinor := 1, contentLength := 0,
    transferEncoding := [], close := false, uncompressed := false,
    requestRef := 34, tlsRef := 35 }

/-- The value a successful `cloneStep` installs into the shared Result, made
explicit: a fresh Request clone (object id `c`, header map id `c + 1`, body
reader id `c + 3`) and a fresh Response clone (object id `c + 4`, header map
id `c + 5`, body reader id `c + 7`, trailer map id `c + 8`), both bodies
fresh readers over the bytes drained from the current bodies; ids `c + 2`
and `c + 6` go to the readers refreshed into the two original objects. -/
def freshPair (r : Result) (c : Nat) : Result :=
  { r with
    request :=
      { id := c, headerId := c + 1, header := r.request.header,
        bodyId := c + 3, body := some ⟨bodyBytes r.request.body, 0, false⟩ },
    response :=
      { id := c + 4, headerId := c + 5, header := r.response.header,
        trailerId := c + 8, trailer := r.response.trailer,
        bodyId := c + 7, body := some ⟨bodyBytes r.response.body, 0, false⟩,
        status := r.response.status, statusCode := r.response.statusCode,
        proto := r.response.proto, protoMajor := r.response.protoMajor,
        protoMinor := r.response.protoMinor, contentLength := r.response.contentLength,
        transferEncoding := [], close := r.response.close,
        uncompressed := r.response.uncompressed,
        requestRef := r.response.requestRef, tlsRef := r.response.tlsRef } }

/-- `isCloneChain r c ds rf`: the deliveries `ds` arise by repeatedly applying
`cloneStep` starting from the shared Result `r` — delivery 0 is the clone
step of `r` itself, and each later delivery is the clone step of the
PREVIOUS delivery, not of `r` — and `rf`, the final state of the shared
Result, is the last delivery (or `r` when there is none). -/
def isCloneChain : Result → Nat → List Result → Result → Prop
  | r, _, [], rf => rf = r
  | r, c, d :: ds, rf => ∃ c1, cloneStep r c = COut.ok (d, c1) ∧ isCloneChain d c1 ds rf

/-- The deliveries made before an aborted fan-out, chained as in
`isCloneChain` but with no final-state component. -/
def deliveredChain : Result → Nat → List Result → Prop
  | _, _, [] => True
  | r, c, d :: ds => ∃ c1, cloneStep r c = COut.ok (d, c1) ∧ deliveredChain d c1 ds

/-- A sequence of `SendResult` calls over a broker with `n` plugins, threading
the shared Result and the fresh-id counter; a failing call leaves the Result
as the caller last saw it. -/
def sendSeq : Nat → Nat → Result → Nat → Result × Nat
  | 0, _, r, c => (r, c)
  | Nat.succ k, n, r, c =>
    match sendLoop n r c with
    | SendOut.ok r1 c1 _ => sendSeq k n r1 c1
    | SendOut.err _ => (r, c)
    | SendOut.crash _ => (r, c)

/-- `M` successive `Request.CloneBody` calls on the same request object,
collecting the clones in order; each call leaves the in-place-mutated
original as the input of the next call. -/
def requestCloneSeq : Nat → Request → Nat → Except Unit (List Request × Request × Nat)
  | 0, r, c => Except.ok ([], r, c)
  | Nat.succ m, r, c =>
    match r.CloneBody c with
    | Except.error e => Except.error e
    | Except.ok (clone, orig, c1) =>
      match requestCloneSeq m orig c1 with
      | Except.error e => Except.error e
      | Except.ok (clones, rf, cf) => Except.ok (clone :: clones, rf, cf)

/-- `M` successive `Response.CloneBody` calls on the same response object. -/
def responseCloneSeq : Nat → Response → Nat → COut (List Response × Response × Nat)
  | 0, r, c => COut.ok ([], r, c)
  | Nat.succ m, r, c =>
    match r.CloneBody c with
    | COut.err => COut.err
    | COut.crash => COut.crash
    | COut.ok (clone, orig, c1) =>
      match responseCloneSeq m orig c1 with
      | COut.err => COut.err
      | COut.crash => COut.crash
      | COut.ok (clones, rf, cf) => COut.ok (clone :: clones, rf, cf)

/-- The clone a `Response.CloneBody` call returns, when it succeeds. -/
def responseCloneOf : COut (Response × Response × Nat) → Option Response
  | COut.ok (clone, _, _) => some clone
  | _ => none

/-- One iteration of the `SendResult` loop body with nothing discarded: like
`cloneStep`, but the first component of a successful outcome is the state the
two CLONE-SOURCE objects are left in — `CloneBody` drains their body streams
and overwrites their `Body` fields in place. From the second iteration on,
those source objects are exactly the Request/Response delivered to the
previous plugin, so this component records the broker writing to an
already-delivered copy. -/
def cloneStepFull (result : Result) (ctr : Nat) : COut ((Result × Result) × Nat) :=
  match result.request.CloneBody ctr with
  | Except.error _ => COut.err
  | Except.ok (req, origReq, ctr1) =>
    match result.response.CloneBody ctr1 with
    | COut.err => COut.err
    | COut.crash => COut.crash
    | COut.ok (resp, origResp, ctr2) =>
      COut.ok (({ result with request := origReq, response := origResp },
                { result with request := req, response := resp }), ctr2)

/-- Outcome of the fully traced dispatch loop: on success, the state the
INPUT Result's objects are left in when `SendResult` returns, the per-plugin
pairs `(snapshot sent on the channel, state of those same objects when
SendResult returns)`, the final shared Result, and the final fresh-id
counter. Error bookkeeping for the abort paths lives in `sendLoop`. -/
inductive SendFullOut where
  | ok : Result → List (Result × Result) → Result → Nat → SendFullOut
  | err : SendFullOut
  | crash : SendFullOut
deriving DecidableEq, Repr

/-- The final shared Result of a successful traced dispatch. -/
def SendFullOut.finalResult : SendFullOut → Option Result
  | SendFullOut.ok _ _ rf _ => some rf
  | _ => none

/-- The per-plugin `(sent snapshot, state at return)` pairs of a successful
traced dispatch. -/
def SendFullOut.deliveries : SendFullOut → List (Result × Result)
  | SendFullOut.ok _ ds _ _ => ds
  | _ => []

/-- The `SendResult` loop with the post-handoff mutations kept. Every
iteration sends the same shared `*Result` pointer; the snapshot recorded for
plugin `i` is the value behind that pointer at the moment of the send, and
the paired second component is where the broker leaves plugin `i`'s
Request/Response objects by the time `SendResult` returns: iteration `i + 1`
clones FROM those objects, draining and replacing their bodies in place, so
only the last plugin's pair survives untouched — and that last pair is the
one the final shared Result still references. `sendLoop` is the
sent-snapshot projection of this function (`sendLoopFull_projects`). -/
def sendLoopFull : Nat → Result → Nat → SendFullOut
  | 0, result, ctr => SendFullOut.ok result [] result ctr
  | Nat.succ n, result, ctr =>
    match cloneStepFull result ctr with
    | COut.err => SendFullOut.err
    | COut.crash => SendFullOut.crash
    | COut.ok ((resultMut, result1), ctr1) =>
      match sendLoopFull n result1 ctr1 with
      | SendFullOut.ok result1Final ds rf cf =>
        SendFullOut.ok resultMut ((result1, result1Final) :: ds) rf cf
      | SendFullOut.err => SendFullOut.err
      | SendFullOut.crash => SendFullOut.crash

/-- The state a successful `cloneStepFull` leaves the clone-source objects
in: the same Request and Response objects (`id`, `headerId`, `trailerId`,
header/trailer content, scalars all unchanged) with their `Body` fields
overwritten in place — fresh readers (ids `c + 2` and `c + 6`) over the
drained bytes. -/
def drainedPair (r : Result) (c : Nat) : Result :=
  { r with
    request :=
      { r.request with
        bodyId := c + 2
        body := some ⟨bodyBytes r.request.body, 0, false⟩ },
    response :=
      { r.response with
        bodyId := c + 6
        body := some ⟨bodyBytes r.response.body, 0, false⟩ } }

theorem cloneStep_eq (r : Result) (c : Nat) (hg : goodBodies r) :
    cloneStep r c = COut.ok (freshPair r c, c + 9) := by
  obtain ⟨hq, hs⟩ := hg
  rcases hqb : r.request.body with _ | rq
  · rw [hqb] at hq; exact absurd hq (by simp [goodBody])
  rcases hsb : r.response.body with _ | rs
  · rw [hsb] at hs; exact absurd hs (by simp [goodBody])
  rw [hqb] at hq; rw [hsb] at hs
  simp only [goodBody] at hq hs
  simp [cloneStep, Request.CloneBody, Response.CloneBody, hqb, hsb, hq, hs,
    freshPair, bodyBytes]

theorem freshPair_good (r : Result) (c : Nat) : goodBodies (freshPair r c) := by
  constructor <;> simp [freshPair, goodBody]

theorem freshPair_objIds (r : Result) (c : Nat) :
    (freshPair r c).objIds = [c, c + 1, c + 3, c + 4, c + 5, c + 8, c + 7] := rfl

theorem freshPair_bodyBytes (r : Result) (c : Nat) :
    bodyBytes (freshPair r c).request.body = bodyBytes r.request.body ∧
    bodyBytes (freshPair r c).response.body = bodyBytes r.response.body := by
  constructor <;> simp [freshPair, bodyBytes, Reader.readable]

theorem metaEq_trans {a b c : Result} (h1 : metaEq a b) (h2 : metaEq b c) : metaEq a c := by
  obtain ⟨p1, l1, f1, t1⟩ := h1
  obtain ⟨p2, l2, f2, t2⟩ := h2
  exact ⟨p1.trans p2, l1.trans l2, f1.trans f2, t1.trans t2⟩

theorem freshPair_meta (r : Result) (c : Nat) : metaEq (freshPair r c) r :=
  ⟨rfl, rfl, rfl, rfl⟩

theorem cloneStep_meta {r r1 : Result} {c c1 : Nat}
    (h : cloneStep r c = COut.ok (r1, c1)) : metaEq r1 r := by
  unfold cloneStep at h
  split at h
  · cases h
  · split at h
    · cases h
    · cases h
    · injection h with h'
      cases h'
      exact ⟨rfl, rfl, rfl, rfl⟩

theorem sendLoop_ok_chain : ∀ (n : Nat) (r : Result) (c : Nat) {rf : Result} {cf : Nat}
    {ds : List Result}, sendLoop n r c = SendOut.ok rf cf ds → isCloneChain r c ds rf := by
  intro n
  induction n with
  | zero =>
    intro r c rf cf ds h
    rw [sendLoop] at h
    injection h with h1 h2 h3
    subst h1; subst h3
    rfl
  | succ n ih =>
    intro r c rf cf ds h
    rw [sendLoop] at h
    split at h
    · cases h
    · cases h
    · rename_i r1 c1 heq
      split at h
      · rename_i rf1 cf1 ds1 hrec
        injection h with h1 h2 h3
        subst h1; subst h3
        exact ⟨c1, heq, ih r1 c1 hrec⟩
      · cases h
      · cases h

theorem sendLoop_ok_length : ∀ (n : Nat) (r : Result) (c : Nat) {rf : Result} {cf : Nat}
    {ds : List Result}, sendLoop n r c = SendOut.ok rf cf ds → ds.length = n := by
  intro n
  induction n with
  | zero =>
    intro r c rf cf ds h
    rw [sendLoop] at h
    injection h with h1 h2 h3
    subst h3
    rfl
  | succ n ih =>
    intro r c rf cf ds h
    rw [sendLoop] at h
    split at h
    · cases h
    · cases h
    · rename_i r1 c1 heq
      split at h
      · rename_i rf1 cf1 ds1 hrec
        injection h with h1 h2 h3
        subst h3
        simp [ih r1 c1 hrec]
      · cases h
      · cases h

theorem sendLoop_err_spec : ∀ (n : Nat) (r : Result) (c : Nat) {ds : List Result},
    sendLoop n r c = SendOut.err ds → ds.length < n ∧ deliveredChain r c ds := by
  intro n
  induction n with
  | zero =>
    intro r c ds h
    rw [sendLoop] at h
    cases h
  | succ n ih =>
    intro r c ds h
    rw [sendLoop] at h
    split at h
    · injection h with h1
      subst h1
      exact ⟨Nat.succ_pos n, trivial⟩
    · cases h
    · rename_i r1 c1 heq
      split at h
      · cases h
      · rename_i ds1 hrec
        injection h with h1
        subst h1
        obtain ⟨hlen, hch⟩ := ih r1 c1 hrec
        exact ⟨by simpa using Nat.succ_lt_succ hlen, ⟨c1, heq, hch⟩⟩
      · cases h

theorem isCloneChain_getLast : ∀ (ds : List Result) (r : Result) (c : Nat) {rf : Result},
    isCloneChain r c ds rf → (ds = [] ∧ rf = r) ∨ ds.getLast? = some rf := by
  intro ds
  induction ds with
  | nil => intro r c rf h; exact Or.inl ⟨rfl, h⟩
  | cons d ds ih =>
    intro r c rf h
    obtain ⟨c1, _, hch⟩ := h
    rcases ih d c1 hch with ⟨hnil, hrf⟩ | hlast
    · subst hnil; subst hrf
      exact Or.inr rfl
    · refine Or.inr ?_
      rcases ds with _ | ⟨e, es⟩
      · cases hlast
      · simpa using hlast

theorem sendLoop_good_spec : ∀ (n : Nat) (r : Result) (c : Nat), goodBodies r →
    ∃ rf cf ds, sendLoop n r c = SendOut.ok rf cf ds ∧
      ds.length = n ∧ c ≤ cf ∧ goodBodies rf ∧
      (∀ d ∈ ds, goodBodies d ∧ metaEq d r ∧
        d.request.header = r.request.header ∧
        d.response.header = r.response.header ∧
        d.response.trailer = r.response.trailer ∧
        bodyBytes d.request.body = bodyBytes r.request.body ∧
        bodyBytes d.response.body = bodyBytes r.response.body ∧
        (∀ x ∈ d.objIds, c ≤ x ∧ x < cf)) ∧
      ds.Pairwise (fun a b => ∀ x ∈ a.objIds, ∀ y ∈ b.objIds, x < y) := by
  intro n
  induction n with
  | zero =>
    intro r c hg
    exact ⟨r, c, [], rfl, rfl, Nat.le_refl c, hg, by simp, List.Pairwise.nil⟩
  | succ n ih =>
    intro r c hg
    have hstep := cloneStep_eq r c hg
    obtain ⟨rf, cf, ds, hrec, hlen, hle, hgf, hall, hpw⟩ :=
      ih (freshPair r c) (c + 9) (freshPair_good r c)
    refine ⟨rf, cf, freshPair r c :: ds, ?_, ?_, ?_, hgf, ?_, ?_⟩
    · simp [sendLoop, hstep, hrec]
    · simp [hlen]
    · omega
    · intro d hd
      rcases List.mem_cons.mp hd with hdh | hdt
      · subst hdh
        refine ⟨freshPair_good r c, freshPair_meta r c, rfl, rfl, rfl,
          (freshPair_bodyBytes r c).1, (freshPair_bodyBytes r c).2, ?_⟩
        intro x hx
        rw [freshPair_objIds] at hx
        simp only [List.mem_cons, List.not_mem_nil, or_false] at hx
        rcases hx with rfl | rfl | rfl | rfl | rfl | rfl | rfl <;> omega
      · obtain ⟨hgd, hmeta, hh1, hh2, hh3, hb1, hb2, hids⟩ := hall d hdt
        refine ⟨hgd, metaEq_trans hmeta (freshPair_meta r c), ?_, ?_, ?_, ?_, ?_, ?_⟩
        · rw [hh1]; rfl
        · rw [hh2]; rfl
        · rw [hh3]; rfl
        · rw [hb1]; exact (freshPair_bodyBytes r c).1
        · rw [hb2]; exact (freshPair_bodyBytes r c).2
        · intro x hx
          have := hids x hx
          omega
    · refine List.Pairwise.cons ?_ hpw
      intro d hdt x hx y hy
      have hyb := ((hall d hdt).2.2.2.2.2.2.2 y hy).1
      rw [freshPair_objIds] at hx
      simp only [List.mem_cons, List.not_mem_nil, or_false] at hx
      rcases hx with rfl | rfl | rfl | rfl | rfl | rfl | rfl <;> omega

theorem metaEq_refl (r : Result) : metaEq r r := ⟨rfl, rfl, rfl, rfl⟩

theorem deliveredChain_meta : ∀ (ds : List Result) (r : Result) (c : Nat),
    deliveredChain r c ds → ∀ d ∈ ds, metaEq d r := by
  intro ds
  induction ds with
  | nil => intro r c _ d hd; cases hd
  | cons e es ih =>
    intro r c h d hd
    obtain ⟨c1, hstep, hch⟩ := h
    rcases List.mem_cons.mp hd with hdh | hdt
    · subst hdh; exact cloneStep_meta hstep
    · exact metaEq_trans (ih e c1 hch d hdt) (cloneStep_meta hstep)

theorem isCloneChain_meta : ∀ (ds : List Result) (r : Result) (c : Nat) {rf : Result},
    isCloneChain r c ds rf → (∀ d ∈ ds, metaEq d r) ∧ metaEq rf r := by
  intro ds
  induction ds with
  | nil =>
    intro r c rf h
    refine ⟨fun d hd => absurd hd (List.not_mem_nil d), ?_⟩
    rw [h]; exact metaEq_refl r
  | cons e es ih =>
    intro r c rf h
    obtain ⟨c1, hstep, hch⟩ := h
    obtain ⟨hall, hrf⟩ := ih e c1 hch
    refine ⟨?_, metaEq_trans hrf (cloneStep_meta hstep)⟩
    intro d hd
    rcases List.mem_cons.mp hd with hdh | hdt
    · subst hdh; exact cloneStep_meta hstep
    · exact metaEq_trans (hall d hdt) (cloneStep_meta hstep)

theorem sendSeq_meta : ∀ (k n : Nat) (r : Result) (c : Nat),
    metaEq (sendSeq k n r c).1 r := by
  intro k
  induction k with
  | zero => intro n r c; exact metaEq_refl r
  | succ k ih =>
    intro n r c
    rw [sendSeq]
    split
    · rename_i r1 c1 ds1 heq
      exact metaEq_trans (ih n r1 c1)
        (isCloneChain_meta ds1 r c (sendLoop_ok_chain n r c heq)).2
    · exact metaEq_refl r
    · exact metaEq_refl r

theorem loadLoop_fail : ∀ (paths : List PathSpec) (b : PluginBroker) (c : Nat),
    (∃ p ∈ paths, ∀ l, p ≠ PathSpec.ok l) →
    (loadLoop paths b c).1 = none ∧ (loadLoop paths b c).2.1 ≠ none := by
  intro paths
  induction paths with
  | nil =>
    intro b c h
    obtain ⟨p, hp, _⟩ := h
    cases hp
  | cons p ps ih =>
    intro b c h
    rcases p with _ | _ | _ | l
    · exact ⟨rfl, by simp [loadLoop]⟩
    · exact ⟨rfl, by simp [loadLoop]⟩
    · exact ⟨rfl, by simp [loadLoop]⟩
    · obtain ⟨q, hq, hne⟩ := h
      rcases List.mem_cons.mp hq with hqh | hqt
      · exact absurd hqh.symm (by intro hcontra; exact hne l hcontra.symm)
      · rw [loadLoop]
        exact ih _ (c + 1) ⟨q, hqt, hne⟩

theorem loadLoop_ok : ∀ (paths : List PathSpec) (b : PluginBroker) (c : Nat),
    (∀ p ∈ paths, ∃ l, p = PathSpec.ok l) →
    (∀ x ∈ b.plugins.map PluginHandle.input, x < c) →
    ∃ b' c', loadLoop paths b c = (some b', none, c') ∧
      b'.plugins.map PluginHandle.listener =
        b.plugins.map PluginHandle.listener ++ paths.map listenerOf ∧
      b'.plugins.length = b.plugins.length + paths.length ∧
      (∀ x ∈ b'.plugins.map PluginHandle.input, x < c') ∧
      ((b.plugins.map PluginHandle.input).Nodup →
        (b'.plugins.map PluginHandle.input).Nodup) ∧
      (b.running = b.plugins.map PluginHandle.input →
        b'.running = b'.plugins.map PluginHandle.input) ∧
      (b.wgCount = b.plugins.length → b'.wgCount = b'.plugins.length) := by
  intro paths
  induction paths with
  | nil =>
    intro b c _ hlt
    exact ⟨b, c, rfl, by simp, by simp, hlt, id, id, id⟩
  | cons p ps ih =>
    intro b c hok hlt
    obtain ⟨l, hl⟩ := hok p (List.mem_cons_self p ps)
    subst hl
    have hstep : loadLoop (PathSpec.ok l :: ps) b c =
        loadLoop ps ((b.add ⟨c, l⟩).run ⟨c, l⟩) (c + 1) := rfl
    have hlt1 : ∀ x ∈ ((b.add ⟨c, l⟩).run ⟨c, l⟩).plugins.map PluginHandle.input,
        x < c + 1 := by
      intro x hx
      simp [PluginBroker.add, PluginBroker.run] at hx
      rcases hx with hx | hx
      · have := hlt x (by simpa using hx)
        omega
      · omega
    obtain ⟨b', c', hrec, hmap, hlen, hlt', hnd, hrun, hwg⟩ :=
      ih ((b.add ⟨c, l⟩).run ⟨c, l⟩) (c + 1)
        (fun q hq => hok q (List.mem_cons_of_mem _ hq)) hlt1
    refine ⟨b', c', hstep ▸ hrec, ?_, ?_, hlt', ?_, ?_, ?_⟩
    · rw [hmap]
      simp [PluginBroker.add, PluginBroker.run, listenerOf]
    · rw [hlen]
      simp [PluginBroker.add, PluginBroker.run]
      omega
    · intro hnd0
      refine hnd ?_
      simp only [PluginBroker.add, PluginBroker.run, List.map_append]
      rw [List.nodup_append]
      refine ⟨hnd0, by simp, ?_⟩
      intro x hx hx'
      simp at hx'
      subst hx'
      exact absurd (hlt x hx) (by omega)
    · intro hr0
      refine hrun ?_
      simp [PluginBroker.add, PluginBroker.run, hr0]
    · intro hw0
      refine hwg ?_
      simp [PluginBroker.add, PluginBroker.run, hw0]

theorem filter_set_false : ∀ (l : List Bool) (i : Nat), l.get? i = some false →
    0 < (l.filter fun b => !b).length ∧
    ((l.set i true).filter fun b => !b).length = (l.filter fun b => !b).length - 1 := by
  intro l
  induction l with
  | nil => intro i h; cases h
  | cons x xs ih =>
    intro i h
    cases i with
    | zero =>
      injection h with h
      subst h
      simp
    | succ i =>
      have h' : xs.get? i = some false := h
      obtain ⟨hpos, hlen⟩ := ih i h'
      cases x <;> simp [hlen] <;> omega

theorem wgInv_wstep {s s' : RunState} (hinv : wgInv s) (hstep : WStep s s') : wgInv s' := by
  obtain ⟨hwg, hlen⟩ := hinv
  cases hstep with
  | ret i hc hd =>
    obtain ⟨hpos, hlenf⟩ := filter_set_false s.workerDone i hd
    exact ⟨by rw [hlenf, ← hwg], by simpa using hlen⟩

theorem wgInv_signalDone {s : RunState} (hinv : wgInv s) : wgInv (SignalDone s) := by
  obtain ⟨hwg, hlen⟩ := hinv
  exact ⟨hwg, by simpa [SignalDone] using hlen⟩

theorem waitReturns_iff_allDone {s : RunState} (hinv : wgInv s) :
    waitReturns s ↔ allDone s := by
  obtain ⟨hwg, _⟩ := hinv
  unfold waitReturns allDone
  rw [hwg, List.length_eq_zero, List.filter_eq_nil_iff]
  constructor
  · intro h b hb
    have hh := h b hb
    cases b
    · simp at hh
    · rfl
  · intro h b hb
    rw [h b hb]
    simp

theorem signalDone_closes (s : RunState) (i : Nat) (hi : i < s.chanOpen.length) :
    (SignalDone s).chanOpen.get? i = some false := by
  simp only [SignalDone, List.map_const]
  rw [List.get?_eq_getElem?]
  simp [List.getElem?_replicate, hi]

theorem filter_not_replicate_false (n : Nat) :
    ((List.replicate n false).filter fun b => !b).length = n := by
  induction n with
  | zero => rfl
  | succ n ih => simp [List.replicate_succ, ih]

theorem runState_wgInv (b : PluginBroker) : wgInv b.runState := by
  constructor
  · simp [PluginBroker.runState, filter_not_replicate_false]
  · simp [PluginBroker.runState]

theorem shutdown_liveness : ∀ (m : Nat) (s : RunState), wgInv s →
    (∀ i, i < s.chanOpen.length → s.chanOpen.get? i = some false) →
    (s.workerDone.filter fun b => !b).length = m →
    ∃ sf, Relation.ReflTransGen WStep s sf ∧ allDone sf ∧ waitReturns sf := by
  intro m
  induction m with
  | zero =>
    intro s hinv hc hm
    refine ⟨s, Relation.ReflTransGen.refl, ?_, ?_⟩
    · intro b hb
      by_contra hb'
      have hbf : b = false := by cases b; rfl; exact absurd rfl hb'
      subst hbf
      have hmem : false ∈ s.workerDone.filter fun b => !b :=
        List.mem_filter.mpr ⟨hb, rfl⟩
      rw [List.length_eq_zero] at hm
      rw [hm] at hmem
      cases hmem
    · have := hinv.1
      unfold waitReturns
      omega
  | succ m ih =>
    intro s hinv hc hm
    have hpos : 0 < (s.workerDone.filter fun b => !b).length := by omega
    have hne : (s.workerDone.filter fun b => !b) ≠ [] := by
      intro hcontra
      rw [hcontra] at hpos
      cases hpos
    obtain ⟨a, ha⟩ := List.exists_mem_of_ne_nil _ hne
    obtain ⟨hal, hap⟩ := List.mem_filter.mp ha
    have haf : a = false := by cases a; rfl; cases hap
    subst haf
    obtain ⟨i, hi⟩ := List.get?_of_mem hal
    have hilen : i < s.workerDone.length := List.get?_eq_some.mp hi |>.1
    have hic : i < s.chanOpen.length := by rw [hinv.2]; exact hilen
    have hstep : WStep s
        { chanOpen := s.chanOpen, workerDone := s.workerDone.set i true, wg := s.wg - 1 } :=
      WStep.ret s i (hc i hic) hi
    have hinv' := wgInv_wstep hinv hstep
    obtain ⟨hpos0, hlenf⟩ := filter_set_false s.workerDone i hi
    obtain ⟨sf, hsteps, hdone, hwait⟩ := ih
      { chanOpen := s.chanOpen, workerDone := s.workerDone.set i true, wg := s.wg - 1 }
      hinv' (fun j hj => hc j hj) (by rw [hlenf, hm]; omega)
    exact ⟨sf, Relation.ReflTransGen.head hstep hsteps, hdone, hwait⟩

theorem requestCloneBody_eq {r : Request} (rd : Reader) (hb : r.body = some rd)
    (hf : rd.fails = false) (c : Nat) :
    r.CloneBody c = Except.ok
      ({ id := c, headerId := c + 1, header := r.header, bodyId := c + 3,
         body := some ⟨rd.readable, 0, false⟩ },
       { r with bodyId := c + 2, body := some ⟨rd.readable, 0, false⟩ }, c + 4) := by
  simp [Request.CloneBody, hb, hf]

theorem responseCloneBody_eq {r : Response} (rd : Reader) (hb : r.body = some rd)
    (hf : rd.fails = false) (c : Nat) :
    r.CloneBody c = COut.ok
      ({ id := c, headerId := c + 1, header := r.header,
         trailerId := c + 4, trailer := r.trailer,
         bodyId := c + 3, body := some ⟨rd.readable, 0, false⟩,
         status := r.status, statusCode := r.statusCode,
         proto := r.proto, protoMajor := r.protoMajor, protoMinor := r.protoMinor,
         contentLength := r.contentLength, transferEncoding := [],
         close := r.close, uncompressed := r.uncompressed,
         requestRef := r.requestRef, tlsRef := r.tlsRef },
       { r with bodyId := c + 2, body := some ⟨rd.readable, 0, false⟩ }, c + 5) := by
  simp [Response.CloneBody, hb, hf]

theorem requestCloneSeq_spec : ∀ (M : Nat) (r : Request) (c : Nat), goodBody r.body →
    ∃ clones rf cf, requestCloneSeq M r c = Except.ok (clones, rf, cf) ∧
      clones.length = M ∧
      (∀ cl ∈ clones, bodyBytes cl.body = bodyBytes r.body ∧ fullyReadable cl.body) ∧
      bodyBytes rf.body = bodyBytes r.body ∧ goodBody rf.body ∧
      ((0 < M ∨ fullyReadable r.body) → fullyReadable rf.body) := by
  intro M
  induction M with
  | zero =>
    intro r c hg
    refine ⟨[], r, c, rfl, rfl, by simp, rfl, hg, ?_⟩
    rintro (h | h)
    · cases h
    · exact h
  | succ m ih =>
    intro r c hg
    rcases hb : r.body with _ | rd
    · rw [hb] at hg; cases hg
    have hf : rd.fails = false := by rw [hb] at hg; exact hg
    have hclone := requestCloneBody_eq rd hb hf c
    set orig : Request := { r with bodyId := c + 2, body := some ⟨rd.readable, 0, false⟩ }
      with horig
    have hob : bodyBytes orig.body = bodyBytes (some rd) := by
      simp [horig, bodyBytes, Reader.readable]
    have hog : goodBody orig.body := by simp [horig, goodBody]
    have hofr : fullyReadable orig.body := by simp [horig, fullyReadable]
    obtain ⟨clones, rf, cf, hrec, hlen, hall, hbb, hgf, hfr⟩ := ih orig (c + 4) hog
    refine ⟨{ id := c, headerId := c + 1, header := r.header, bodyId := c + 3,
              body := some ⟨rd.readable, 0, false⟩ } :: clones, rf, cf, ?_,
      by simp [hlen], ?_, by rw [hbb, hob], hgf, ?_⟩
    · simp only [requestCloneSeq, hclone, hrec]
    · intro cl hcl
      rcases List.mem_cons.mp hcl with hclh | hclt
      · subst hclh
        constructor
        · simp [bodyBytes, Reader.readable, hb]
        · simp [fullyReadable]
      · obtain ⟨h1, h2⟩ := hall cl hclt
        exact ⟨h1.trans hob, h2⟩
    · intro _
      exact hfr (Or.inr hofr)

theorem responseCloneSeq_spec : ∀ (M : Nat) (r : Response) (c : Nat), goodBody r.body →
    ∃ clones rf cf, responseCloneSeq M r c = COut.ok (clones, rf, cf) ∧
      clones.length = M ∧
      (∀ cl ∈ clones, bodyBytes cl.body = bodyBytes r.body ∧ fullyReadable cl.body) ∧
      bodyBytes rf.body = bodyBytes r.body ∧ goodBody rf.body ∧
      ((0 < M ∨ fullyReadable r.body) → fullyReadable rf.body) := by
  intro M
  induction M with
  | zero =>
    intro r c hg
    refine ⟨[], r, c, rfl, rfl, by simp, rfl, hg, ?_⟩
    rintro (h | h)
    · cases h
    · exact h
  | succ m ih =>
    intro r c hg
    rcases hb : r.body with _ | rd
    · rw [hb] at hg; cases hg
    have hf : rd.fails = false := by rw [hb] at hg; exact hg
    have hclone := responseCloneBody_eq rd hb hf c
    set orig : Response := { r with bodyId := c + 2, body := some ⟨rd.readable, 0, false⟩ }
      with horig
    have hob : bodyBytes orig.body = bodyBytes (some rd) := by
      simp [horig, bodyBytes, Reader.readable]
    have hog : goodBody orig.body := by simp [horig, goodBody]
    have hofr : fullyReadable orig.body := by simp [horig, fullyReadable]
    obtain ⟨clones, rf, cf, hrec, hlen, hall, hbb, hgf, hfr⟩ := ih orig (c + 5) hog
    refine ⟨{ id := c, headerId := c + 1, header := r.header,
              trailerId := c + 4, trailer := r.trailer,
              bodyId := c + 3, body := some ⟨rd.readable, 0, false⟩,
              status := r.status, statusCode := r.statusCode,
              proto := r.proto, protoMajor := r.protoMajor, protoMinor := r.protoMinor,
              contentLength := r.contentLength, transferEncoding := [],
              close := r.close, uncompressed := r.uncompressed,
              requestRef := r.requestRef, tlsRef := r.tlsRef } :: clones, rf, cf, ?_,
      by simp [hlen], ?_, by rw [hbb, hob], hgf, ?_⟩
    · simp only [responseCloneSeq, hclone, hrec]
    · intro cl hcl
      rcases List.mem_cons.mp hcl with hclh | hclt
      · subst hclh
        constructor
        · simp [bodyBytes, Reader.readable, hb]
        · simp [fullyReadable]
      · obtain ⟨h1, h2⟩ := hall cl hclt
        exact ⟨h1.trans hob, h2⟩
    · intro _
      exact hfr (Or.inr hofr)

/-- C1, counterexample. The claim says that after `SendResult` returns, the
shared Result again references the original/retained Request and Response
pair. On a broker with one plugin and `sampleResult`, the final shared
Result holds the freshly cloned pair (Request object id 100, Response
object id 104), not the original pair (ids 0 and 3): the dispatch loop
assigns the clones into `result.Request`/`result.Response` and never
restores the originals. -/
theorem sendResult_no_restore_cex :
    sendLoop 1 sampleResult 100 =
      SendOut.ok (freshPair sampleResult 100) 109 [freshPair sampleResult 100] ∧
    (freshPair sampleResult 100).request.id ≠ sampleResult.request.id ∧
    (freshPair sampleResult 100).response.id ≠ sampleResult.response.id := by
  refine ⟨rfl, by decide, by decide⟩

/-- C1 (amended): after `SendResult` returns successfully, the shared Result
references the clone pair produced for the LAST delivered plugin (it equals
the last delivery; the original pair is not restored), and the fan-out is a
clone chain: delivery 0 is cloned from the original Result's pair, and each
subsequent plugin's delivery is cloned from the previous plugin's delivery
(the Result's then-current pair), not from the original. -/
theorem sendResult_clone_chain (n : Nat) (result : Result) (ctr : Nat)
    {rf : Result} {cf : Nat} {ds : List Result}
    (h : sendLoop n result ctr = SendOut.ok rf cf ds) :
    isCloneChain result ctr ds rf ∧ ds.length = n ∧
    (ds = [] → rf = result) ∧ (ds ≠ [] → ds.getLast? = some rf) := by
  have hch := sendLoop_ok_chain n result ctr h
  refine ⟨hch, sendLoop_ok_length n result ctr h, ?_, ?_⟩
  · intro hnil
    subst hnil
    exact hch
  · intro hne
    rcases isCloneChain_getLast ds result ctr hch with ⟨hnil, _⟩ | hlast
    · exact absurd hnil hne
    · exact hlast

/-- Witness for the amended C1 theorem at a concrete input: a one-plugin
broker dispatching `sampleResult` from fresh-id counter 100. -/
theorem sendResult_clone_chain_witness :
    isCloneChain sampleResult 100 [freshPair sampleResult 100] (freshPair sampleResult 100) :=
  (sendResult_clone_chain 1 sampleResult 100 rfl).1

/-- C3, divergence witness. The claim says the clone's transfer-encoding
list equals the original's verbatim; but `copy(newResponse.TransferEncoding, ...)`
copies into the nil slice of `new(http.Response)`, so the clone of
`sampleResponse` (whose list is `["chunked"]`) comes back with an empty
transfer-encoding list. All other listed metadata is copied as claimed;
this one field is dropped. -/
theorem cloneBody_drops_transferEncoding :
    (responseCloneOf (Response.CloneBody sampleResponse 100)).map
      Response.transferEncoding = some [] ∧
    sampleResponse.transferEncoding = ["chunked"] :=
  ⟨rfl, rfl⟩

/-- C4: if cloning fails while dispatching (at the plugin of index
`ds.length`), `SendResult` returns a non-nil error (the `SendOut.err`
outcome), the plugins at indices below `ds.length` have each received the
Result (delivery `j` going to plugin `j`, chained clone by clone), fewer
plugins than the `n` registered were served, and the plugins at index
`ds.length` and after have received nothing for this Result. -/
theorem sendResult_aborts_fanout (n : Nat) (result : Result) (ctr : Nat) {ds : List Result}
    (herr : sendLoop n result ctr = SendOut.err ds) :
    ds.length < n ∧ deliveredChain result ctr ds ∧
    (∀ j, j < ds.length → ∃ d, ds.get? j = some d) ∧
    (∀ j, ds.length ≤ j → ds.get? j = none) := by
  obtain ⟨hlen, hch⟩ := sendLoop_err_spec n result ctr herr
  refine ⟨hlen, hch, ?_, ?_⟩
  · intro j hj
    exact ⟨ds.get ⟨j, hj⟩, List.get?_eq_get hj⟩
  · intro j hj
    exact List.get?_eq_none.mpr hj

/-- Witness for C4 at a concrete input: a Result whose request body fails to
drain, dispatched to a two-plugin broker — the error aborts before any
delivery. -/
theorem sendResult_aborts_fanout_witness :
    ([] : List Result).length < 2 ∧ deliveredChain failingResult 100 [] ∧
    (∀ j, j < ([] : List Result).length → ∃ d, ([] : List Result).get? j = some d) ∧
    (∀ j, ([] : List Result).length ≤ j → ([] : List Result).get? j = none) :=
  sendResult_aborts_fanout 2 failingResult 100 rfl

/-- C5: loading is all-or-nothing. If any path fails (module not openable,
factory symbol missing, or the factory returning an error), `LoadPlugins`
returns a nil broker and a non-nil error — never a broker holding only the
plugins that loaded. If every path succeeds, it returns a broker with one
plugin per path in input order (listener `i` from path `i`), pairwise
distinct delivery channels, a started worker for every channel, and one
WaitGroup unit per plugin. -/
theorem loadPlugins_allOrNothing (paths : List PathSpec) (ctr : Nat) :
    ((∃ p ∈ paths, ∀ l, p ≠ PathSpec.ok l) →
      (LoadPlugins paths ctr).1 = none ∧ (LoadPlugins paths ctr).2.1 ≠ none) ∧
    ((∀ p ∈ paths, ∃ l, p = PathSpec.ok l) →
      ∃ b c', LoadPlugins paths ctr = (some b, none, c') ∧
        b.plugins.map PluginHandle.listener = paths.map listenerOf ∧
        b.plugins.length = paths.length ∧
        (b.plugins.map PluginHandle.input).Nodup ∧
        b.running = b.plugins.map PluginHandle.input ∧
        b.wgCount = b.plugins.length) := by
  constructor
  · intro h
    exact loadLoop_fail paths _ ctr h
  · intro h
    obtain ⟨b, c', heq, hmap, hlen, _, hnd, hrun, hwg⟩ :=
      loadLoop_ok paths { plugins := [], wgCount := 0, running := [] } ctr h (by simp)
    exact ⟨b, c', heq, by simpa using hmap, by simpa using hlen,
      hnd (by simp), hrun rfl, hwg rfl⟩

/-- Witness for C5: the failing half at paths `[ok 7, openFail]`, the
succeeding half at `[ok 7, ok 9]`, both from channel counter 0. -/
theorem loadPlugins_allOrNothing_witness :
    ((LoadPlugins [PathSpec.ok 7, PathSpec.openFail] 0).1 = none ∧
      (LoadPlugins [PathSpec.ok 7, PathSpec.openFail] 0).2.1 ≠ none) ∧
    (∃ b c', LoadPlugins [PathSpec.ok 7, PathSpec.ok 9] 0 = (some b, none, c') ∧
      b.plugins.map PluginHandle.listener =
        [PathSpec.ok 7, PathSpec.ok 9].map listenerOf ∧
      b.plugins.length = 2 ∧
      (b.plugins.map PluginHandle.input).Nodup ∧
      b.running = b.plugins.map PluginHandle.input ∧
      b.wgCount = b.plugins.length) := by
  constructor
  · refine (loadPlugins_allOrNothing [PathSpec.ok 7, PathSpec.openFail] 0).1 ?_
    refine ⟨PathSpec.openFail, by simp, ?_⟩
    intro l hl
    cases hl
  · refine (loadPlugins_allOrNothing [PathSpec.ok 7, PathSpec.ok 9] 0).2 ?_
    intro p hp
    rcases List.mem_cons.mp hp with h1 | h1
    · exact ⟨7, h1⟩
    · rcases List.mem_cons.mp h1 with h2 | h2
      · exact ⟨9, h2⟩
      · cases h2

/-- C6: for a request and a response whose bodies drain without error, any
number `M` of successive `CloneBody` calls succeeds; every clone's body
content is byte-identical to the original body's readable content, every
clone is fully readable, and after each call (whenever at least one call was
made) the original's body is again fully readable with the same content —
cloning is idempotent with respect to content, for unbounded `M`. -/
theorem cloneBody_idempotent_content (M : Nat) (req : Request) (resp : Response)
    (c c2 : Nat) (hreq : goodBody req.body) (hresp : goodBody resp.body) :
    (∃ clones rf cf, requestCloneSeq M req c = Except.ok (clones, rf, cf) ∧
      clones.length = M ∧
      (∀ cl ∈ clones, bodyBytes cl.body = bodyBytes req.body ∧ fullyReadable cl.body) ∧
      bodyBytes rf.body = bodyBytes req.body ∧
      (0 < M → fullyReadable rf.body)) ∧
    (∃ clones rf cf, responseCloneSeq M resp c2 = COut.ok (clones, rf, cf) ∧
      clones.length = M ∧
      (∀ cl ∈ clones, bodyBytes cl.body = bodyBytes resp.body ∧ fullyReadable cl.body) ∧
      bodyBytes rf.body = bodyBytes resp.body ∧
      (0 < M → fullyReadable rf.body)) := by
  constructor
  · obtain ⟨clones, rf, cf, h1, h2, h3, h4, _, h6⟩ := requestCloneSeq_spec M req c hreq
    exact ⟨clones, rf, cf, h1, h2, h3, h4, fun hM => h6 (Or.inl hM)⟩
  · obtain ⟨clones, rf, cf, h1, h2, h3, h4, _, h6⟩ := responseCloneSeq_spec M resp c2 hresp
    exact ⟨clones, rf, cf, h1, h2, h3, h4, fun hM => h6 (Or.inl hM)⟩

/-- Witness for C6 at a concrete input: three successive clones of
`sampleRequest` and of `sampleResponse`. -/
theorem cloneBody_idempotent_content_witness :
    (∃ clones rf cf, requestCloneSeq 3 sampleRequest 10 = Except.ok (clones, rf, cf) ∧
      clones.length = 3 ∧
      (∀ cl ∈ clones,
        bodyBytes cl.body = bodyBytes sampleRequest.body ∧ fullyReadable cl.body) ∧
      bodyBytes rf.body = bodyBytes sampleRequest.body ∧
      (0 < 3 → fullyReadable rf.body)) ∧
    (∃ clones rf cf, responseCloneSeq 3 sampleResponse 10 = COut.ok (clones, rf, cf) ∧
      clones.length = 3 ∧
      (∀ cl ∈ clones,
        bodyBytes cl.body = bodyBytes sampleResponse.body ∧ fullyReadable cl.body) ∧
      bodyBytes rf.body = bodyBytes sampleResponse.body ∧
      (0 < 3 → fullyReadable rf.body)) :=
  cloneBody_idempotent_content 3 sampleRequest sampleResponse 10 10 (by decide) (by decide)

/-- C7: the broker never mutates a Result's metadata — after any sequence of
`SendResult` calls the shared Result keeps its `Payload`, `Location`,
`FieldName` and `TimeElapsed` unchanged, and every delivery handed to a
plugin (on both the success and the error path) carries the original
metadata as well; only the Request/Response references are replaced. -/
theorem sendResult_preserves_metadata (k n : Nat) (r : Result) (c : Nat) :
    metaEq (sendSeq k n r c).1 r ∧
    (∀ rf cf ds, sendLoop n r c = SendOut.ok rf cf ds →
      metaEq rf r ∧ ∀ d ∈ ds, metaEq d r) ∧
    (∀ ds, sendLoop n r c = SendOut.err ds → ∀ d ∈ ds, metaEq d r) := by
  refine ⟨sendSeq_meta k n r c, ?_, ?_⟩
  · intro rf cf ds h
    have hmeta := isCloneChain_meta ds r c (sendLoop_ok_chain n r c h)
    exact ⟨hmeta.2, hmeta.1⟩
  · intro ds h
    exact deliveredChain_meta ds r c (sendLoop_err_spec n r c h).2

/-- Witness for C7 at a concrete input: two `SendResult` calls on a
one-plugin broker starting from `sampleResult`, plus the delivery of the
first call. -/
theorem sendResult_preserves_metadata_witness :
    metaEq (sendSeq 2 1 sampleResult 100).1 sampleResult ∧
    metaEq (freshPair sampleResult 100) sampleResult :=
  ⟨(sendResult_preserves_metadata 2 1 sampleResult 100).1,
    ((sendResult_preserves_metadata 2 1 sampleResult 100).2.1
      (freshPair sampleResult 100) 109 [freshPair sampleResult 100] rfl).1⟩

/-- C8: a broker with zero registered plugins — `SendResult` returns nil at
once, with no delivery made, no clone taken and the shared Result (and the
fresh-id counter) untouched; `SignalDone` closes no channels (the runtime
state is unchanged, there being no channels); and `Wait` returns
immediately (the WaitGroup counter is already zero). -/
theorem emptyBroker_noop (b : PluginBroker) (hb : b.plugins = []) :
    (∀ r c, b.SendResult r c = SendOut.ok r c []) ∧
    SignalDone b.runState = b.runState ∧
    waitReturns b.runState := by
  refine ⟨?_, ?_, ?_⟩
  · intro r c
    simp [PluginBroker.SendResult, hb, sendLoop]
  · simp [PluginBroker.runState, hb, SignalDone]
  · simp [PluginBroker.runState, hb, waitReturns]

/-- Witness for C8 at the concrete empty broker. -/
theorem emptyBroker_noop_witness :
    PluginBroker.SendResult ⟨[], 0, []⟩ sampleResult 0 = SendOut.ok sampleResult 0 [] ∧
    SignalDone (PluginBroker.runState ⟨[], 0, []⟩) = PluginBroker.runState ⟨[], 0, []⟩ ∧
    waitReturns (PluginBroker.runState ⟨[], 0, []⟩) :=
  ⟨(emptyBroker_noop ⟨[], 0, []⟩ rfl).1 sampleResult 0,
    (emptyBroker_noop ⟨[], 0, []⟩ rfl).2.1,
    (emptyBroker_noop ⟨[], 0, []⟩ rfl).2.2⟩

/-- C9: shutdown correctness over the worker transition system. After
`SignalDone`, every registered plugin's delivery channel is closed, and
from that state an execution exists in which every worker's `Listen` call
returns, ending with `Wait` unblocked. Under the WaitGroup invariant
(preserved by every worker step), `Wait` returns exactly when every worker
has returned — in particular, calling `Wait` early does not return while
any worker is still running. -/
theorem shutdown_correctness (s : RunState) (hinv : wgInv s) :
    (∀ i, i < (SignalDone s).chanOpen.length →
      (SignalDone s).chanOpen.get? i = some false) ∧
    (waitReturns s ↔ allDone s) ∧
    (¬ allDone s → ¬ waitReturns s) ∧
    (∀ t t', wgInv t → WStep t t' → wgInv t') ∧
    (∃ sf, Relation.ReflTransGen WStep (SignalDone s) sf ∧ allDone sf ∧ waitReturns sf) := by
  refine ⟨?_, waitReturns_iff_allDone hinv, ?_, ?_, ?_⟩
  · intro i hi
    have hlen : (SignalDone s).chanOpen.length = s.chanOpen.length := by simp [SignalDone]
    exact signalDone_closes s i (hlen ▸ hi)
  · intro h hw
    exact h ((waitReturns_iff_allDone hinv).mp hw)
  · intro t t' ht hstep
    exact wgInv_wstep ht hstep
  · refine shutdown_liveness _ (SignalDone s) (wgInv_signalDone hinv) ?_ rfl
    intro i hi
    have hlen : (SignalDone s).chanOpen.length = s.chanOpen.length := by simp [SignalDone]
    exact signalDone_closes s i (hlen ▸ hi)

/-- Witness for C9 at the concrete runtime state of a freshly loaded
two-plugin broker. -/
theorem shutdown_correctness_witness :
    (waitReturns (⟨[true, true], [false, false], 2⟩ : RunState) ↔
      allDone (⟨[true, true], [false, false], 2⟩ : RunState)) ∧
    (∃ sf, Relation.ReflTransGen WStep
        (SignalDone ⟨[true, true], [false, false], 2⟩) sf ∧
      allDone sf ∧ waitReturns sf) :=
  ⟨(shutdown_correctness ⟨[true, true], [false, false], 2⟩ (by decide)).2.1,
    (shutdown_correctness ⟨[true, true], [false, false], 2⟩ (by decide)).2.2.2.2⟩

/-- C10: `Request.CloneBody` on a nil body returns the structural clone and a
nil error without reading or replacing any stream — the clone's body is nil
and the original object is returned exactly as it was; `Response.CloneBody`
has no nil-body branch: on a nil body it dereferences nil (`ioutil.ReadAll`
panics), so it is well-defined only under the precondition that the body is
non-nil. -/
theorem cloneBody_nilBody (r : Request) (resp : Response) (c c2 : Nat)
    (hr : r.body = none) (hresp : resp.body = none) :
    Request.CloneBody r c =
      Except.ok ({ id := c, headerId := c + 1, header := r.header,
                   bodyId := r.bodyId, body := none }, r, c + 2) ∧
    Response.CloneBody resp c2 = COut.crash := by
  constructor
  · simp [Request.CloneBody, hr]
  · simp [Response.CloneBody, hresp]

/-- Witness for C10 at concrete nil-body messages. -/
theorem cloneBody_nilBody_witness :
    Request.CloneBody nilBodyRequest 50 =
      Except.ok ({ id := 50, headerId := 51, header := [],
                   bodyId := 22, body := none }, nilBodyRequest, 52) ∧
    Response.CloneBody nilBodyResponse 60 = COut.crash :=
  cloneBody_nilBody nilBodyRequest nilBodyResponse 50 60 rfl rfl

theorem cloneStepFull_fst {r rm r1 : Result} {c c1 : Nat}
    (h : cloneStepFull r c = COut.ok ((rm, r1), c1)) :
    cloneStep r c = COut.ok (r1, c1) := by
  unfold cloneStepFull at h
  split at h
  · cases h
  · rename_i req origReq ctr1 heq
    split at h
    · cases h
    · cases h
    · rename_i resp origResp ctr2 hs
      injection h with h'
      injection h' with h1 h2
      injection h1 with h3 h4
      subst h4
      subst h2
      simp [cloneStep, heq, hs]

theorem cloneStepFull_eq (r : Result) (c : Nat) (hg : goodBodies r) :
    cloneStepFull r c = COut.ok ((drainedPair r c, freshPair r c), c + 9) := by
  obtain ⟨hq, hs⟩ := hg
  rcases hqb : r.request.body with _ | rq
  · rw [hqb] at hq; exact absurd hq (by simp [goodBody])
  rcases hsb : r.response.body with _ | rs
  · rw [hsb] at hs; exact absurd hs (by simp [goodBody])
  rw [hqb] at hq; rw [hsb] at hs
  simp only [goodBody] at hq hs
  simp [cloneStepFull, Request.CloneBody, Response.CloneBody, hqb, hsb, hq, hs,
    drainedPair, freshPair, bodyBytes]

theorem sendLoopFull_projects : ∀ (n : Nat) (r : Result) (c : Nat)
    {rin rf : Result} {cf : Nat} {ds : List (Result × Result)},
    sendLoopFull n r c = SendFullOut.ok rin ds rf cf →
    sendLoop n r c = SendOut.ok rf cf (ds.map Prod.fst) := by
  intro n
  induction n with
  | zero =>
    intro r c rin rf cf ds h
    rw [sendLoopFull] at h
    injection h with h1 h2 h3 h4
    subst h2; subst h3; subst h4
    rfl
  | succ n ih =>
    intro r c rin rf cf ds h
    rw [sendLoopFull] at h
    split at h
    · cases h
    · cases h
    · rename_i rm r1 c1 heq
      split at h
      · rename_i r1f ds1 rf1 cf1 hrec
        injection h with h1 h2 h3 h4
        subst h2; subst h3; subst h4
        have hstep := cloneStepFull_fst heq
        have hrec' := ih r1 c1 hrec
        simp [sendLoop, hstep, hrec']
      · cases h
      · cases h

/-- C2, refuting theorem (the claim is right about the spec's intent; the
code violates it). Dispatching `sampleResult` to a two-plugin broker, the
traced loop shows:
1. Plugin 0's delivered pair (snapshot `freshPair sampleResult 100`) is NOT
   exclusively owned: by the time `SendResult` returns, those same Request
   and Response objects (identical object ids 100 and 104) have had their
   `Body` fields drained and overwritten by the broker (reader ids 103 and
   107 replaced by 111 and 115) while it cloned for plugin 1 — the broker
   itself reads and writes a plugin's copy after handoff, so a plugin
   draining its body in that window corrupts the next plugin's copy.
2. The final shared Result — the producer's retained pair, since the code
   sends the same shared `*Result` to every plugin and never restores the
   originals — is exactly plugin 1's delivered snapshot, so mutating the
   last plugin's copy mutates the producer's retained pair. -/
theorem sendResult_not_isolated_bug :
    sendLoopFull 2 sampleResult 100 =
      SendFullOut.ok (drainedPair sampleResult 100)
        [(freshPair sampleResult 100, drainedPair (freshPair sampleResult 100) 109),
         (freshPair (freshPair sampleResult 100) 109,
          freshPair (freshPair sampleResult 100) 109)]
        (freshPair (freshPair sampleResult 100) 109) 118 ∧
    (drainedPair (freshPair sampleResult 100) 109).request.id =
      (freshPair sampleResult 100).request.id ∧
    (drainedPair (freshPair sampleResult 100) 109).request.bodyId ≠
      (freshPair sampleResult 100).request.bodyId ∧
    (drainedPair (freshPair sampleResult 100) 109).response.id =
      (freshPair sampleResult 100).response.id ∧
    (drainedPair (freshPair sampleResult 100) 109).response.bodyId ≠
      (freshPair sampleResult 100).response.bodyId ∧
    (sendLoopFull 2 sampleResult 100).finalResult =
      ((sendLoopFull 2 sampleResult 100).deliveries.map Prod.fst).getLast? := by
  refine ⟨?_, by decide, by decide, by decide, by decide, by decide⟩
  rfl

end Httpfuzz
